import Mathlib

/-!
Verification development for the ThothScriptorium dashboard.

The definitions below are a shallow embedding of the two data-shaping
routines of the repository: the income-statement Sankey builder
(src/plot_sankey.py, function plot_income_sankey) and the peer-comparison
table script (src/plot_table.py).  Python floats are modelled as exact
rationals; Python exceptions are modelled with Except; the pandas and
plotly layers are modelled only where the output of the code depends on their
documented semantics (DataFrame.pivot sorts the pivoted axes).
-/

namespace Sankey

/-- One row of the normalized financial table (a LineItemRecord of the
payload): semantic `anchor`, human-readable `display_name`, and the
reporting-period value `current`. -/
structure Row where
  anchor : String
  display_name : String
  current : ℚ
deriving DecidableEq

/-- plot_sankey.py lines 18-22, `get_row`: scan the table for the first row
whose anchor matches; raise ValueError (modelled as `Except.error`) with the
message naming the anchor when no row matches. -/
def get_row : List Row → String → Except String Row
  | [], anchor => .error ("Row not found for anchor=" ++ anchor)
  | row :: rest, anchor =>
    if row.anchor = anchor then .ok row else get_row rest anchor

/-- plot_sankey.py lines 24-25, `get_rows_by_anchor`: all rows carrying the
given anchor, in table order. -/
def get_rows_by_anchor (table : List Row) (anchor : String) : List Row :=
  table.filter (fun row => row.anchor == anchor)

/-- plot_sankey.py lines 161-164, `pct`: percentage helper; the zero test on
the denominator happens before any division, so a zero denominator yields
`none` and no division is performed. -/
def pct (num denom : ℚ) : Option ℚ :=
  if denom = 0 then none else some (100 * num / denom)

/-- Decimal idealization of the Python format specifier ".1f" used in the
node-label f-strings of plot_sankey.py: 10 times the value, rounded to the
nearest integer (ties rounded up here; no tie occurs in any claim), printed
with one digit after the decimal point. -/
def fmt1 (q : ℚ) : String :=
  let n : ℤ := ⌊q * 10 + 1 / 2⌋
  (if n < 0 then "-" else "") ++ toString (n.natAbs / 10) ++ "." ++ toString (n.natAbs % 10)

/-- The assignment pattern repeated at plot_sankey.py lines 182-217: when the
percentage is present, overwrite the label at index `i` with it, formatted and
suffixed; when it is `None`, leave the labels unchanged. -/
def setPct (l : List String) (i : Nat) (p : Option ℚ) (sfx : String) : List String :=
  match p with
  | some q => l.set i (fmt1 q ++ sfx)
  | none => l

/-- One step of the node-value loop at plot_sankey.py lines 167-170: raise the
entries at the source and then at the target of the flow to at least the flow
value (the target read sees the source write, as in the Python statements). -/
def bumpNodeValues (nv : List ℚ) (f : Nat × Nat × ℚ) : List ℚ :=
  let nv1 := nv.set f.1 (max (nv.getD f.1 0) f.2.2)
  nv1.set f.2.1 (max (nv1.getD f.2.1 0) f.2.2)

/-- plot_sankey.py lines 232-234: the `total_out` dictionary, read back at one
source index: the sum of the values of the flows leaving that source. -/
def total_out (flows : List (Nat × Nat × ℚ)) (s : Nat) : ℚ :=
  flows.foldl (fun acc f => if f.1 = s then acc + f.2.2 else acc) 0

/-- plot_sankey.py lines 236-239: the hover percentage of one link; `pct`
against the total outflow of the source when that total is nonzero (the
Python truthiness test on `total_out.get(s)`), and 0.0 otherwise. -/
def linkF (flows : List (Nat × Nat × ℚ)) (f : Nat × Nat × ℚ) : ℚ :=
  (if total_out flows f.1 ≠ 0 then pct f.2.2 (total_out flows f.1) else none).getD 0

/-- The flow graph assembled by plot_income_sankey: node display names, the
(source, target, value) flow triples, the per-node display magnitudes, the
per-node percentage labels, and the per-link hover percentages.  The layout
coordinates and color strings of the source are presentation constants with
no data dependence beyond `n_seg` and are not modelled. -/
structure SankeyGraph where
  nodes : List String
  flows : List (Nat × Nat × ℚ)
  nodeValues : List ℚ
  pctText : List String
  linkPct : List ℚ
deriving DecidableEq

/-- The straight-line body of plot_income_sankey (plot_sankey.py lines 39-239)
once the eight anchor lookups have succeeded: values (costs taken as absolute
values), node list (segments first, then the eight fixed nodes), flow list
(segment flows first, then the seven fixed flows), node values, percentage
labels, and link percentages. -/
def mkGraph (rev_row cogs_row gp_row opex_row ebit_row pbt_row tax_row net_row : Row)
    (segments : List Row) : SankeyGraph :=
  let rev_total := rev_row.current
  let cogs := |cogs_row.current|
  let gp := gp_row.current
  let opex_total := |opex_row.current|
  let ebit := ebit_row.current
  let pbt := pbt_row.current
  let tax := |tax_row.current|
  let net_profit := net_row.current
  let nodes := segments.map (fun s => s.display_name) ++
    [rev_row.display_name, cogs_row.display_name, gp_row.display_name, opex_row.display_name,
     ebit_row.display_name, pbt_row.display_name, tax_row.display_name, net_row.display_name]
  let n_seg := segments.length
  let flows := (segments.enum.map (fun p => (p.1, n_seg, p.2.current))) ++
    [(n_seg, n_seg + 1, cogs), (n_seg, n_seg + 2, gp),
     (n_seg + 2, n_seg + 3, opex_total), (n_seg + 2, n_seg + 4, ebit),
     (n_seg + 4, n_seg + 5, pbt),
     (n_seg + 5, n_seg + 6, tax), (n_seg + 5, n_seg + 7, net_profit)]
  let node_values := flows.foldl bumpNodeValues (List.replicate nodes.length 0)
  let t0 := List.replicate nodes.length ""
  let t1 := segments.enum.foldl
    (fun acc p => setPct acc p.1 (pct p.2.current rev_total) "% of Revenue") t0
  let t2 := t1.set n_seg "100.0% of Revenue"
  let t3 := setPct t2 (n_seg + 1) (pct cogs rev_total) "% of Revenue"
  let t4 := setPct t3 (n_seg + 2) (pct gp rev_total) "% of Revenue"
  let t5 := setPct t4 (n_seg + 3) (pct opex_total gp) "% of Gross profit"
  let t6 := setPct t5 (n_seg + 4) (pct ebit gp) "% of Gross profit"
  let t7 := setPct t6 (n_seg + 5) (pct pbt ebit) "% of EBIT"
  let t8 := setPct t7 (n_seg + 6) (pct tax pbt) "% of PBT"
  let t9 := setPct t8 (n_seg + 7) (pct net_profit pbt) "% of PBT"
  { nodes := nodes
    flows := flows
    nodeValues := node_values
    pctText := t9
    linkPct := flows.map (linkF flows) }

/-- The data pipeline of plot_income_sankey (plot_sankey.py lines 28-239): the
eight required-anchor lookups in source order, each of which may raise, then
the straight-line graph construction on the rows found and the segment rows. -/
def buildSankey (table : List Row) : Except String SankeyGraph := do
  let rev_row ← get_row table "REV_TOTAL"
  let cogs_row ← get_row table "COGS_TOTAL"
  let gp_row ← get_row table "GP_TOTAL"
  let opex_row ← get_row table "OPEX_TOTAL"
  let ebit_row ← get_row table "EBIT_TOTAL"
  let pbt_row ← get_row table "PBT_TOTAL"
  let tax_row ← get_row table "TAX_EXPENSE"
  let net_row ← get_row table "NET_PROFIT_TOTAL"
  return mkGraph rev_row cogs_row gp_row opex_row ebit_row pbt_row tax_row net_row
    (get_rows_by_anchor table "REV_BREAKDOWN_SEGMENT")

/-- The eight anchors looked up by plot_income_sankey, in lookup order. -/
def requiredAnchors : List String :=
  ["REV_TOTAL", "COGS_TOTAL", "GP_TOTAL", "OPEX_TOTAL",
   "EBIT_TOTAL", "PBT_TOTAL", "TAX_EXPENSE", "NET_PROFIT_TOTAL"]

/-- Number of segment rows of a table, the `n_seg` of plot_sankey.py. -/
def segCount (table : List Row) : Nat :=
  (get_rows_by_anchor table "REV_BREAKDOWN_SEGMENT").length

/-- Stated from the words of the spec, for comparison in claim C7: the maximum
weight among the edges touching node `i` as source or target. -/
def maxTouching (flows : List (Nat × Nat × ℚ)) (i : Nat) : Option ℚ :=
  ((flows.filter (fun f => f.1 == i || f.2.1 == i)).map (fun f => f.2.2)).max?

/-- The link percentages attached to the edges whose source is `s`, read off
the parallel `flows` and `linkPct` lists of a graph. -/
def sourcePcts (g : SankeyGraph) (s : Nat) : List ℚ :=
  ((g.flows.zip g.linkPct).filter (fun p => p.1.1 == s)).map (fun p => p.2)

end Sankey

namespace PeerTable

/-- One record of the multi-company metric table consumed by plot_table.py:
company `code`, `metric` name, and numeric `clean_value`. -/
structure MetricRow where
  code : String
  metric : String
  clean_value : ℚ
deriving DecidableEq

/-- First-occurrence deduplication with an accumulator of elements already
seen: the semantics of pandas drop_duplicates and Series.unique (keep the
first occurrence, preserve order). -/
def dropDupAux {α : Type} [DecidableEq α] : List α → List α → List α
  | [], _ => []
  | x :: xs, seen =>
    if x ∈ seen then dropDupAux xs seen else x :: dropDupAux xs (x :: seen)

/-- pandas drop_duplicates / Series.unique on a list. -/
def dropDup {α : Type} [DecidableEq α] (l : List α) : List α := dropDupAux l []

/-- Code-unit lexicographic order on character lists, the order pandas uses to
compare string labels when sorting a pivoted axis. -/
def charListLe : List Char → List Char → Bool
  | [], _ => true
  | _ :: _, [] => false
  | a :: as, b :: bs =>
    if a.toNat < b.toNat then true
    else if b.toNat < a.toNat then false
    else charListLe as bs

/-- Code-unit lexicographic order on strings. -/
def strLe (a b : String) : Bool := charListLe a.data b.data

/-- Sort string labels lexicographically (stable). -/
def sortStrings (l : List String) : List String :=
  List.insertionSort (fun a b => strLe a b = true) l

/-- plot_table.py lines 11-13: the peer selection.  Rows of the size metric
market_cap for companies other than the target, projected to (code, value)
pairs, first-occurrence deduplicated, sorted by value descending (modelled as
a stable sort; pandas leaves tie order unspecified), the first five taken,
their codes deduplicated in order of appearance. -/
def peers (df_all : List MetricRow) (code : String) : List String :=
  dropDup (((List.insertionSort (fun a b : String × ℚ => b.2 ≤ a.2)
    (dropDup ((df_all.filter
      (fun r => r.metric == "market_cap" && r.code != code)).map
        (fun r => (r.code, r.clean_value))))).take 5).map (fun p => p.1))

/-- plot_table.py line 15: the selection list, target code first. -/
def category (df_all : List MetricRow) (code : String) : List String :=
  code :: peers df_all code

/-- plot_table.py line 17: restrict the table to the selected companies and
drop duplicate (code, metric, value) rows. -/
def df_all_filtered (df_all : List MetricRow) (code : String) : List MetricRow :=
  dropDup (df_all.filter (fun r => (category df_all code).contains r.code))

/-- pandas DataFrame.pivot (plot_table.py line 18), columns axis: the column
labels of the pivoted frame are the sorted unique values of the `code`
column, regardless of the order of the selection list. -/
def pivotColumns (rows : List MetricRow) : List String :=
  sortStrings (dropDup (rows.map (fun r => r.code)))

/-- pandas DataFrame.pivot, index axis: the row labels of the pivoted frame
are the sorted unique values of the `metric` column. -/
def pivotIndex (rows : List MetricRow) : List String :=
  sortStrings (dropDup (rows.map (fun r => r.metric)))

/-- A cell of the pivoted frame: the value recorded for (metric, code). -/
def pivotCell (rows : List MetricRow) (metric code : String) : Option ℚ :=
  (rows.find? (fun r => r.metric == metric && r.code == code)).map
    (fun r => r.clean_value)

/-- plot_table.py lines 20-52: the fixed allow-list of core metrics, in the
intended presentation order. -/
def core_metrics_in_order : List String :=
  ["Return On Invested Capital (TTM)",
   "Return on Equity (TTM)",
   "Operating Profit Margin (Quarter)",
   "Current EPS (TTM)",
   "Revenue (Quarter YoY Growth)",
   "EPS Growth (TTM)",
   "Net Income (Quarter YoY Growth)",
   "Cash From Operations (TTM)",
   "Free cash flow (TTM)",
   "Free Cashflow Per Share (TTM)",
   "Debt to Equity Ratio (Quarter)",
   "Interest Coverage (TTM)",
   "Net Debt (Quarter)",
   "Current Ratio (Quarter)",
   "Altman Z-Score (Modified)",
   "Asset Turnover (TTM)",
   "Cash Conversion Cycle (Quarter)",
   "Inventory Turnover (TTM)",
   "Current PE Ratio (TTM)",
   "PEG Ratio"]

/-- plot_table.py line 56: the allow-list metrics that actually occur in the
index of the pivoted frame, in allow-list order. -/
def metrics_available (df_all : List MetricRow) (code : String) : List String :=
  core_metrics_in_order.filter
    (fun m => (pivotIndex (df_all_filtered df_all code)).contains m)

/-- The column labels of the final core table df_core (plot_table.py line 58):
row selection with .loc keeps the columns of the pivoted frame. -/
def df_core_columns (df_all : List MetricRow) (code : String) : List String :=
  pivotColumns (df_all_filtered df_all code)

/-- plot_table.py lines 63-95: the metric-to-segment map used for row
highlighting. -/
def metric_to_segment (m : String) : Option String :=
  if m == "Return On Invested Capital (TTM)" then some "Quality"
  else if m == "Return on Equity (TTM)" then some "Quality"
  else if m == "Operating Profit Margin (Quarter)" then some "Quality"
  else if m == "Current EPS (TTM)" then some "Quality"
  else if m == "Revenue (Quarter YoY Growth)" then some "Growth"
  else if m == "EPS Growth (TTM)" then some "Growth"
  else if m == "Net Income (Quarter YoY Growth)" then some "Growth"
  else if m == "Cash From Operations (TTM)" then some "Cash Flow"
  else if m == "Free cash flow (TTM)" then some "Cash Flow"
  else if m == "Free Cashflow Per Share (TTM)" then some "Cash Flow"
  else if m == "Debt to Equity Ratio (Quarter)" then some "Risk"
  else if m == "Interest Coverage (TTM)" then some "Risk"
  else if m == "Net Debt (Quarter)" then some "Risk"
  else if m == "Current Ratio (Quarter)" then some "Risk"
  else if m == "Altman Z-Score (Modified)" then some "Risk"
  else if m == "Asset Turnover (TTM)" then some "Efficiency"
  else if m == "Cash Conversion Cycle (Quarter)" then some "Efficiency"
  else if m == "Inventory Turnover (TTM)" then some "Efficiency"
  else if m == "Current PE Ratio (TTM)" then some "Valuation"
  else if m == "PEG Ratio" then some "Valuation"
  else none

end PeerTable

namespace Sankey

theorem exc_bind_ok {ε α β : Type} (a : α) (f : α → Except ε β) :
    ((Except.ok a : Except ε α) >>= f) = f a := rfl

theorem exc_bind_error {ε α β : Type} (e : ε) (f : α → Except ε β) :
    ((Except.error e : Except ε α) >>= f) = Except.error e := rfl

/-- When no row of the table carries the anchor, `get_row` raises the
ValueError whose message names that anchor. -/
theorem get_row_of_absent (table : List Row) (a : String)
    (h : ∀ r ∈ table, r.anchor ≠ a) :
    get_row table a = .error ("Row not found for anchor=" ++ a) := by
  induction table with
  | nil => rfl
  | cons row rest ih =>
    have hrow : row.anchor ≠ a := h row (by simp)
    simp only [get_row, if_neg hrow]
    exact ih (fun r hr => h r (by simp [hr]))

/-- When some row of the table carries the anchor, `get_row` succeeds and
returns a row of the table carrying it. -/
theorem get_row_of_present (table : List Row) (a : String)
    (h : ∃ r ∈ table, r.anchor = a) :
    ∃ r, get_row table a = .ok r ∧ r ∈ table ∧ r.anchor = a := by
  induction table with
  | nil => simp at h
  | cons row rest ih =>
    by_cases hrow : row.anchor = a
    · exact ⟨row, by simp [get_row, hrow], by simp, hrow⟩
    · obtain ⟨r, hr, hra⟩ := h
      rcases List.mem_cons.mp hr with rfl | hr'
      · exact absurd hra hrow
      · obtain ⟨r', h1, h2, h3⟩ := ih ⟨r, hr', hra⟩
        exact ⟨r', by simp [get_row, if_neg hrow, h1], by simp [h2], h3⟩

/-- `get_row` returns the first matching row in table order, ignoring any
later duplicates. -/
theorem get_row_first (pre post : List Row) (r : Row) (a : String)
    (hr : r.anchor = a) (hpre : ∀ r' ∈ pre, r'.anchor ≠ a) :
    get_row (pre ++ r :: post) a = .ok r := by
  induction pre with
  | nil => simp [get_row, hr]
  | cons row rest ih =>
    have hrow : row.anchor ≠ a := hpre row (by simp)
    simp only [List.cons_append, get_row, if_neg hrow]
    exact ih (fun r' h' => hpre r' (by simp [h']))

/-- Successful lookups for all eight anchors determine the result of
`buildSankey`. -/
theorem buildSankey_ok_of (table : List Row) (r1 r2 r3 r4 r5 r6 r7 r8 : Row)
    (h1 : get_row table "REV_TOTAL" = .ok r1)
    (h2 : get_row table "COGS_TOTAL" = .ok r2)
    (h3 : get_row table "GP_TOTAL" = .ok r3)
    (h4 : get_row table "OPEX_TOTAL" = .ok r4)
    (h5 : get_row table "EBIT_TOTAL" = .ok r5)
    (h6 : get_row table "PBT_TOTAL" = .ok r6)
    (h7 : get_row table "TAX_EXPENSE" = .ok r7)
    (h8 : get_row table "NET_PROFIT_TOTAL" = .ok r8) :
    buildSankey table = .ok (mkGraph r1 r2 r3 r4 r5 r6 r7 r8
      (get_rows_by_anchor table "REV_BREAKDOWN_SEGMENT")) := by
  simp only [buildSankey, h1, h2, h3, h4, h5, h6, h7, h8, exc_bind_ok]
  rfl

/-- A successful `buildSankey` run decomposes into eight successful anchor
lookups followed by the straight-line graph construction. -/
theorem buildSankey_ok_elim (table : List Row) (g : SankeyGraph)
    (h : buildSankey table = .ok g) :
    ∃ r1 r2 r3 r4 r5 r6 r7 r8 : Row,
      get_row table "REV_TOTAL" = .ok r1 ∧
      get_row table "COGS_TOTAL" = .ok r2 ∧
      get_row table "GP_TOTAL" = .ok r3 ∧
      get_row table "OPEX_TOTAL" = .ok r4 ∧
      get_row table "EBIT_TOTAL" = .ok r5 ∧
      get_row table "PBT_TOTAL" = .ok r6 ∧
      get_row table "TAX_EXPENSE" = .ok r7 ∧
      get_row table "NET_PROFIT_TOTAL" = .ok r8 ∧
      g = mkGraph r1 r2 r3 r4 r5 r6 r7 r8
        (get_rows_by_anchor table "REV_BREAKDOWN_SEGMENT") := by
  unfold buildSankey at h
  cases h1 : get_row table "REV_TOTAL" with
  | error e => rw [h1, exc_bind_error] at h; exact absurd h (by simp)
  | ok r1 =>
  rw [h1, exc_bind_ok] at h
  cases h2 : get_row table "COGS_TOTAL" with
  | error e => rw [h2, exc_bind_error] at h; exact absurd h (by simp)
  | ok r2 =>
  rw [h2, exc_bind_ok] at h
  cases h3 : get_row table "GP_TOTAL" with
  | error e => rw [h3, exc_bind_error] at h; exact absurd h (by simp)
  | ok r3 =>
  rw [h3, exc_bind_ok] at h
  cases h4 : get_row table "OPEX_TOTAL" with
  | error e => rw [h4, exc_bind_error] at h; exact absurd h (by simp)
  | ok r4 =>
  rw [h4, exc_bind_ok] at h
  cases h5 : get_row table "EBIT_TOTAL" with
  | error e => rw [h5, exc_bind_error] at h; exact absurd h (by simp)
  | ok r5 =>
  rw [h5, exc_bind_ok] at h
  cases h6 : get_row table "PBT_TOTAL" with
  | error e => rw [h6, exc_bind_error] at h; exact absurd h (by simp)
  | ok r6 =>
  rw [h6, exc_bind_ok] at h
  cases h7 : get_row table "TAX_EXPENSE" with
  | error e => rw [h7, exc_bind_error] at h; exact absurd h (by simp)
  | ok r7 =>
  rw [h7, exc_bind_ok] at h
  cases h8 : get_row table "NET_PROFIT_TOTAL" with
  | error e => rw [h8, exc_bind_error] at h; exact absurd h (by simp)
  | ok r8 =>
  rw [h8, exc_bind_ok] at h
  refine ⟨r1, r2, r3, r4, r5, r6, r7, r8, rfl, rfl, rfl, rfl, rfl, rfl, rfl, rfl, ?_⟩
  have h' : (Except.ok (mkGraph r1 r2 r3 r4 r5 r6 r7 r8
      (get_rows_by_anchor table "REV_BREAKDOWN_SEGMENT")) : Except String SankeyGraph)
      = .ok g := h
  exact (Except.ok.inj h').symm

end Sankey

namespace Sankey

theorem mkGraph_nodes (r1 r2 r3 r4 r5 r6 r7 r8 : Row) (segs : List Row) :
    (mkGraph r1 r2 r3 r4 r5 r6 r7 r8 segs).nodes =
      segs.map (fun s => s.display_name) ++
        [r1.display_name, r2.display_name, r3.display_name, r4.display_name,
         r5.display_name, r6.display_name, r7.display_name, r8.display_name] := rfl

theorem mkGraph_flows (r1 r2 r3 r4 r5 r6 r7 r8 : Row) (segs : List Row) :
    (mkGraph r1 r2 r3 r4 r5 r6 r7 r8 segs).flows =
      segs.enum.map (fun p => (p.1, segs.length, p.2.current)) ++
        [(segs.length, segs.length + 1, |r2.current|),
         (segs.length, segs.length + 2, r3.current),
         (segs.length + 2, segs.length + 3, |r4.current|),
         (segs.length + 2, segs.length + 4, r5.current),
         (segs.length + 4, segs.length + 5, r6.current),
         (segs.length + 5, segs.length + 6, |r7.current|),
         (segs.length + 5, segs.length + 7, r8.current)] := rfl

theorem mkGraph_nodeValues (r1 r2 r3 r4 r5 r6 r7 r8 : Row) (segs : List Row) :
    (mkGraph r1 r2 r3 r4 r5 r6 r7 r8 segs).nodeValues =
      (mkGraph r1 r2 r3 r4 r5 r6 r7 r8 segs).flows.foldl bumpNodeValues
        (List.replicate (mkGraph r1 r2 r3 r4 r5 r6 r7 r8 segs).nodes.length 0) := rfl

theorem mkGraph_linkPct (r1 r2 r3 r4 r5 r6 r7 r8 : Row) (segs : List Row) :
    (mkGraph r1 r2 r3 r4 r5 r6 r7 r8 segs).linkPct =
      (mkGraph r1 r2 r3 r4 r5 r6 r7 r8 segs).flows.map
        (linkF (mkGraph r1 r2 r3 r4 r5 r6 r7 r8 segs).flows) := rfl

theorem mkGraph_pctText (r1 r2 r3 r4 r5 r6 r7 r8 : Row) (segs : List Row) :
    (mkGraph r1 r2 r3 r4 r5 r6 r7 r8 segs).pctText =
      setPct (setPct (setPct (setPct (setPct (setPct (setPct
        ((segs.enum.foldl
          (fun acc p => setPct acc p.1 (pct p.2.current r1.current) "% of Revenue")
          (List.replicate (mkGraph r1 r2 r3 r4 r5 r6 r7 r8 segs).nodes.length "")).set
            segs.length "100.0% of Revenue")
        (segs.length + 1) (pct |r2.current| r1.current) "% of Revenue")
        (segs.length + 2) (pct r3.current r1.current) "% of Revenue")
        (segs.length + 3) (pct |r4.current| r3.current) "% of Gross profit")
        (segs.length + 4) (pct r5.current r3.current) "% of Gross profit")
        (segs.length + 5) (pct r6.current r5.current) "% of EBIT")
        (segs.length + 6) (pct |r7.current| r6.current) "% of PBT")
        (segs.length + 7) (pct r8.current r6.current) "% of PBT" := rfl

theorem mkGraph_nodes_length (r1 r2 r3 r4 r5 r6 r7 r8 : Row) (segs : List Row) :
    (mkGraph r1 r2 r3 r4 r5 r6 r7 r8 segs).nodes.length = segs.length + 8 := by
  simp [mkGraph_nodes]

theorem mkGraph_flows_length (r1 r2 r3 r4 r5 r6 r7 r8 : Row) (segs : List Row) :
    (mkGraph r1 r2 r3 r4 r5 r6 r7 r8 segs).flows.length = segs.length + 7 := by
  simp [mkGraph_flows]

/-- The first component of an entry of `List.enum` is an index into the list. -/
theorem fst_lt_of_mem_enum {α : Type} {l : List α} {p : ℕ × α} (h : p ∈ l.enum) :
    p.1 < l.length := by
  obtain ⟨i, x⟩ := p
  have h' : (i, x) ∈ List.enumFrom 0 l := h
  have := List.mem_enumFrom h'
  omega

/-- Every flow of the graph goes from a lower node index to a strictly higher
node index below the node count. -/
theorem mkGraph_flows_bounds (r1 r2 r3 r4 r5 r6 r7 r8 : Row) (segs : List Row) :
    ∀ f ∈ (mkGraph r1 r2 r3 r4 r5 r6 r7 r8 segs).flows,
      f.1 < f.2.1 ∧ f.2.1 < (mkGraph r1 r2 r3 r4 r5 r6 r7 r8 segs).nodes.length := by
  intro f hf
  rw [mkGraph_nodes_length]
  rw [mkGraph_flows] at hf
  rcases List.mem_append.mp hf with hseg | hfix
  · obtain ⟨p, hp, rfl⟩ := List.mem_map.mp hseg
    have hlt := fst_lt_of_mem_enum hp
    exact ⟨by simpa using hlt, by simp⟩
  · simp only [List.mem_cons, List.not_mem_nil, or_false] at hfix
    rcases hfix with rfl | rfl | rfl | rfl | rfl | rfl | rfl <;>
      exact ⟨by simp, by simp⟩

end Sankey

namespace Sankey

theorem getD_set_self {α : Type} :
    ∀ (l : List α) (i : Nat) (a d : α), i < l.length → (l.set i a).getD i d = a
  | [], i, _, _, h => absurd h (by simp)
  | _ :: _, 0, _, _, _ => rfl
  | _ :: xs, i + 1, a, d, h => getD_set_self xs i a d (by simpa using h)

theorem getD_set_ne {α : Type} :
    ∀ (l : List α) (i j : Nat) (a d : α), i ≠ j → (l.set i a).getD j d = l.getD j d
  | [], _, _, _, _, _ => rfl
  | _ :: _, 0, 0, _, _, h => absurd rfl h
  | _ :: _, 0, _ + 1, _, _, _ => rfl
  | _ :: _, _ + 1, 0, _, _, _ => rfl
  | _ :: xs, i + 1, j + 1, a, d, h =>
    getD_set_ne xs i j a d (fun hij => h (by omega))

theorem getD_replicate {α : Type} :
    ∀ (n i : Nat) (x d : α), i < n → (List.replicate n x).getD i d = x
  | 0, i, _, _, h => absurd h (by simp)
  | _ + 1, 0, _, _, _ => rfl
  | n + 1, i + 1, x, d, h => getD_replicate n i x d (by omega)

theorem pct_zero (n : ℚ) : pct n 0 = none := by simp [pct]

theorem setPct_length (l : List String) (i : Nat) (p : Option ℚ) (sfx : String) :
    (setPct l i p sfx).length = l.length := by
  cases p <;> simp [setPct]

theorem setPct_getD_ne (l : List String) (i j : Nat) (p : Option ℚ) (sfx d : String)
    (h : i ≠ j) : (setPct l i p sfx).getD j d = l.getD j d := by
  cases p with
  | none => rfl
  | some q => exact getD_set_ne l i j _ d h

theorem setPct_getD_some (l : List String) (i : Nat) (q : ℚ) (sfx d : String)
    (h : i < l.length) : (setPct l i (some q) sfx).getD i d = fmt1 q ++ sfx := by
  simpa [setPct] using getD_set_self l i (fmt1 q ++ sfx) d h

/-- The segment-label loop only writes at the indices named by `enum` entries:
any other index keeps its previous label. -/
theorem segFold_getD (ps : List (ℕ × Row)) (rv : ℚ) (acc : List String) (j : Nat)
    (d : String) (h : ∀ p ∈ ps, p.1 ≠ j) :
    (ps.foldl (fun acc p => setPct acc p.1 (pct p.2.current rv) "% of Revenue") acc).getD j d
      = acc.getD j d := by
  induction ps generalizing acc with
  | nil => rfl
  | cons p ps ih =>
    simp only [List.foldl_cons]
    rw [ih _ (fun q hq => h q (by simp [hq]))]
    exact setPct_getD_ne acc p.1 j _ _ d (h p (by simp))

theorem segFold_length (ps : List (ℕ × Row)) (rv : ℚ) (acc : List String) :
    (ps.foldl (fun acc p => setPct acc p.1 (pct p.2.current rv) "% of Revenue") acc).length
      = acc.length := by
  induction ps generalizing acc with
  | nil => rfl
  | cons p ps ih => simp only [List.foldl_cons]; rw [ih, setPct_length]

/-- With a zero revenue total, the segment-label loop writes nothing at all. -/
theorem segFold_zero (ps : List (ℕ × Row)) (acc : List String) :
    (ps.foldl (fun acc p => setPct acc p.1 (pct p.2.current 0) "% of Revenue") acc) = acc := by
  induction ps generalizing acc with
  | nil => rfl
  | cons p ps ih => simp only [List.foldl_cons, pct_zero, setPct]; exact ih acc

end Sankey

namespace Sankey

/-- The worked example of the spec (section 8): the eight required anchors with
the example values, zero segments. -/
def exRev : Row := ⟨"REV_TOTAL", "Revenue", 1000⟩

def exCogs : Row := ⟨"COGS_TOTAL", "COGS", -400⟩

def exGp : Row := ⟨"GP_TOTAL", "Gross profit", 600⟩

def exOpex : Row := ⟨"OPEX_TOTAL", "Opex", -300⟩

def exEbit : Row := ⟨"EBIT_TOTAL", "EBIT", 300⟩

def exPbt : Row := ⟨"PBT_TOTAL", "PBT", 280⟩

def exTax : Row := ⟨"TAX_EXPENSE", "Tax", -70⟩

def exNet : Row := ⟨"NET_PROFIT_TOTAL", "Net profit", 210⟩

def exTable : List Row := [exRev, exCogs, exGp, exOpex, exEbit, exPbt, exTax, exNet]

/-- C1: for every well-formed input table (one on which the builder succeeds),
the graph has exactly `n_segments + 8` nodes and `n_segments + 7` edges; with
zero segments the counts are exactly 8 and 7 and no edge enters the Revenue
node (index 0), i.e. the segment-to-Revenue edges are entirely absent. -/
theorem sankey_node_edge_count (table : List Row) (g : SankeyGraph)
    (h : buildSankey table = .ok g) :
    g.nodes.length = segCount table + 8 ∧
    g.flows.length = segCount table + 7 ∧
    (segCount table = 0 →
      g.nodes.length = 8 ∧ g.flows.length = 7 ∧ ∀ f ∈ g.flows, f.2.1 ≠ 0) := by
  obtain ⟨r1, r2, r3, r4, r5, r6, r7, r8, -, -, -, -, -, -, -, -, rfl⟩ :=
    buildSankey_ok_elim table g h
  refine ⟨mkGraph_nodes_length r1 r2 r3 r4 r5 r6 r7 r8 _,
    mkGraph_flows_length r1 r2 r3 r4 r5 r6 r7 r8 _, fun h0 => ?_⟩
  have h0' : (get_rows_by_anchor table "REV_BREAKDOWN_SEGMENT").length = 0 := h0
  refine ⟨by rw [mkGraph_nodes_length, h0'], by rw [mkGraph_flows_length, h0'], ?_⟩
  intro f hf
  have hb := mkGraph_flows_bounds r1 r2 r3 r4 r5 r6 r7 r8 _ f hf
  rw [mkGraph_flows, List.length_eq_zero.mp h0'] at hf
  simp only [List.enum_nil, List.map_nil, List.nil_append, List.mem_cons,
    List.not_mem_nil, or_false] at hf
  rcases hf with rfl | rfl | rfl | rfl | rfl | rfl | rfl <;> simp

/-- C1 witness: the example table has zero segments and the builder yields
exactly 8 nodes and 7 edges on it. -/
theorem sankey_node_edge_count_witness :
    ∃ g, buildSankey exTable = .ok g ∧
      g.nodes.length = segCount exTable + 8 ∧ g.flows.length = segCount exTable + 7 ∧
      segCount exTable = 0 := by
  refine ⟨_, rfl, (sankey_node_edge_count exTable _ rfl).1,
    (sankey_node_edge_count exTable _ rfl).2.1, rfl⟩

/-- C9: every edge of the produced graph points from a strictly smaller node
index to a strictly larger one, and both endpoints are valid indices into the
node list, so the edge list is a DAG with all references in range. -/
theorem sankey_edges_acyclic (table : List Row) (g : SankeyGraph)
    (h : buildSankey table = .ok g) :
    ∀ f ∈ g.flows, f.1 < f.2.1 ∧ f.2.1 < g.nodes.length := by
  obtain ⟨r1, r2, r3, r4, r5, r6, r7, r8, -, -, -, -, -, -, -, -, rfl⟩ :=
    buildSankey_ok_elim table g h
  exact mkGraph_flows_bounds r1 r2 r3 r4 r5 r6 r7 r8 _

/-- C9 witness: on the example table, the builder succeeds and all edges are
ascending and in range. -/
theorem sankey_edges_acyclic_witness :
    ∃ g, buildSankey exTable = .ok g ∧
      ∀ f ∈ g.flows, f.1 < f.2.1 ∧ f.2.1 < g.nodes.length :=
  ⟨_, rfl, sankey_edges_acyclic exTable _ rfl⟩

end Sankey

namespace Sankey

/-- C6: on the worked example table of the spec (zero segments), the builder yields
8 nodes and 7 edges, the Revenue node label carries "100.0% of Revenue", the
COGS node "40.0% of Revenue", and the Tax node "25.0% of PBT".  With zero
segments the Revenue, COGS and Tax nodes sit at indices 0, 1 and 6. -/
theorem sankey_example_values :
    ∃ g, buildSankey exTable = .ok g ∧
      g.nodes.length = 8 ∧ g.flows.length = 7 ∧
      g.pctText.getD 0 "" = "100.0% of Revenue" ∧
      g.pctText.getD 1 "" = "40.0% of Revenue" ∧
      g.pctText.getD 6 "" = "25.0% of PBT" := by
  refine ⟨_, rfl, ?_, ?_, ?_, ?_, ?_⟩
  · simp [mkGraph_nodes_length, exTable, exRev, exCogs, exGp, exOpex, exEbit, exPbt, exTax, exNet,
      get_rows_by_anchor]
  · simp [mkGraph_flows_length, exTable, exRev, exCogs, exGp, exOpex, exEbit, exPbt, exTax, exNet,
      get_rows_by_anchor]
  · simp [mkGraph, pct, fmt1, setPct, exTable, exRev, exCogs, exGp, exOpex, exEbit, exPbt, exTax, exNet,
      get_rows_by_anchor]
    try norm_num
    try rfl
  · simp [mkGraph, pct, fmt1, setPct, exTable, exRev, exCogs, exGp, exOpex, exEbit, exPbt, exTax, exNet,
      get_rows_by_anchor]
    try norm_num
    try rfl
  · simp [mkGraph, pct, fmt1, setPct, exTable, exRev, exCogs, exGp, exOpex, exEbit, exPbt, exTax, exNet,
      get_rows_by_anchor]
    try norm_num
    try rfl

/-- A variant of the example table with a negative gross profit, used to
refute claim C2 as stated. -/
def exGpNeg : Row := ⟨"GP_TOTAL", "Gross profit", -600⟩

def exTableNegGP : List Row := [exRev, exCogs, exGpNeg, exOpex, exEbit, exPbt, exTax, exNet]

/-- C2 counterexample: edge weights are NOT always non-negative.  On a
well-formed table whose GP_TOTAL row carries current = -600 the builder
succeeds and produces the Revenue-to-Gross-Profit edge with weight -600 < 0:
only the COGS, OPEX and Tax values pass through abs(). -/
theorem edge_weight_can_be_negative :
    ∃ g, buildSankey exTableNegGP = .ok g ∧ ∃ f ∈ g.flows, f.2.2 < 0 := by
  refine ⟨_, rfl, ⟨(0, 2, -600), ?_, by norm_num⟩⟩
  simp [mkGraph_flows, exTableNegGP, exRev, exCogs, exGpNeg, exOpex, exEbit, exPbt, exTax, exNet,
    get_rows_by_anchor]

/-- C2 amended: the cost and expense edges - the edges entering the COGS,
Operating Expenses and Tax nodes (targets n_seg+1, n_seg+3, n_seg+6) - take
their magnitudes as absolute values and are therefore non-negative; the other
edge weights (segments, GP, EBIT, PBT, Net Profit) are the record current
values passed through unchanged and may be negative. -/
theorem cost_edge_weights_nonneg (table : List Row) (g : SankeyGraph)
    (h : buildSankey table = .ok g) :
    ∀ f ∈ g.flows,
      (f.2.1 = segCount table + 1 ∨ f.2.1 = segCount table + 3 ∨
        f.2.1 = segCount table + 6) →
      0 ≤ f.2.2 := by
  obtain ⟨r1, r2, r3, r4, r5, r6, r7, r8, -, -, -, -, -, -, -, -, rfl⟩ :=
    buildSankey_ok_elim table g h
  intro f hf htgt
  have hsc : segCount table = (get_rows_by_anchor table "REV_BREAKDOWN_SEGMENT").length := rfl
  rw [hsc] at htgt
  rw [mkGraph_flows] at hf
  rcases List.mem_append.mp hf with hseg | hfix
  · obtain ⟨p, hp, rfl⟩ := List.mem_map.mp hseg
    simp only at htgt
    omega
  · simp only [List.mem_cons, List.not_mem_nil, or_false] at hfix
    rcases hfix with rfl | rfl | rfl | rfl | rfl | rfl | rfl <;>
      simp only at htgt ⊢ <;> first | exact abs_nonneg _ | omega

/-- C2 amended witness: on the example table the Revenue-to-COGS edge (the
first flow, target index 1 = n_seg+1) has non-negative weight. -/
theorem cost_edge_weights_nonneg_witness :
    ∃ g, buildSankey exTable = .ok g ∧ 0 ≤ (g.flows.getD 0 (0, 0, 0)).2.2 := by
  refine ⟨_, rfl, ?_⟩
  exact cost_edge_weights_nonneg exTable _ rfl _
    (by simp [mkGraph_flows, exTable, exRev, exCogs, exGp, exOpex, exEbit, exPbt, exTax, exNet,
      get_rows_by_anchor])
    (by simp [mkGraph_flows, exTable, exRev, exCogs, exGp, exOpex, exEbit, exPbt, exTax, exNet,
      get_rows_by_anchor, segCount])

end Sankey

namespace Sankey

theorem setPct_none (l : List String) (i : Nat) (sfx : String) :
    setPct l i none sfx = l := rfl

theorem foldl_id {α β : Type} (l : List β) (a : α) :
    l.foldl (fun acc _ => acc) a = a := by
  induction l generalizing a with
  | nil => rfl
  | cons b l ih => exact ih a

/-- C3: a zero denominator in any of the division-based node-percentage rules
leaves the percentage string of the node empty.  `pct` tests the denominator before
dividing (first conjunct: `pct n 0 = none`, no division happens), and every
consumer of a `none` percentage leaves the pre-initialized empty label in
place: zero Revenue blanks the segment, COGS and Gross Profit labels, zero
Gross Profit blanks the OPEX and EBIT labels, zero EBIT blanks the PBT label,
and zero PBT blanks the Tax and Net Profit labels.  The Revenue rule is the
fixed string "100.0% of Revenue" and performs no division at all.  The whole
construction is total: no exception is modelled anywhere after the anchor
lookups. -/
theorem zero_denominator_empty_pct (r1 r2 r3 r4 r5 r6 r7 r8 : Row) (segs : List Row) :
    (∀ n : ℚ, pct n 0 = none) ∧
    (r1.current = 0 →
      (∀ i, i < segs.length →
        (mkGraph r1 r2 r3 r4 r5 r6 r7 r8 segs).pctText.getD i "" = "") ∧
      (mkGraph r1 r2 r3 r4 r5 r6 r7 r8 segs).pctText.getD (segs.length + 1) "" = "" ∧
      (mkGraph r1 r2 r3 r4 r5 r6 r7 r8 segs).pctText.getD (segs.length + 2) "" = "") ∧
    (r3.current = 0 →
      (mkGraph r1 r2 r3 r4 r5 r6 r7 r8 segs).pctText.getD (segs.length + 3) "" = "" ∧
      (mkGraph r1 r2 r3 r4 r5 r6 r7 r8 segs).pctText.getD (segs.length + 4) "" = "") ∧
    (r5.current = 0 →
      (mkGraph r1 r2 r3 r4 r5 r6 r7 r8 segs).pctText.getD (segs.length + 5) "" = "") ∧
    (r6.current = 0 →
      (mkGraph r1 r2 r3 r4 r5 r6 r7 r8 segs).pctText.getD (segs.length + 6) "" = "" ∧
      (mkGraph r1 r2 r3 r4 r5 r6 r7 r8 segs).pctText.getD (segs.length + 7) "" = "") := by
  have hseg : ∀ j, segs.length ≤ j → ∀ p ∈ segs.enum, p.1 ≠ j := by
    intro j hj p hp
    have := fst_lt_of_mem_enum hp
    omega
  have hrep : ∀ j, j < segs.length + 8 →
      (List.replicate (mkGraph r1 r2 r3 r4 r5 r6 r7 r8 segs).nodes.length "").getD j "" = "" :=
    fun j hj => getD_replicate _ _ _ _ (by rw [mkGraph_nodes_length]; omega)
  refine ⟨pct_zero, fun h0 => ⟨fun i hi => ?_, ?_, ?_⟩, fun h0 => ⟨?_, ?_⟩,
    fun h0 => ?_, fun h0 => ⟨?_, ?_⟩⟩
  · rw [mkGraph_pctText]
    simp only [h0, pct_zero, setPct_none]
    rw [setPct_getD_ne _ _ _ _ _ _ (by omega), setPct_getD_ne _ _ _ _ _ _ (by omega),
      setPct_getD_ne _ _ _ _ _ _ (by omega), setPct_getD_ne _ _ _ _ _ _ (by omega),
      setPct_getD_ne _ _ _ _ _ _ (by omega), getD_set_ne _ _ _ _ _ (by omega),
      foldl_id, hrep i (by omega)]
  · rw [mkGraph_pctText]
    simp only [h0, pct_zero, setPct_none]
    rw [setPct_getD_ne _ _ _ _ _ _ (by omega), setPct_getD_ne _ _ _ _ _ _ (by omega),
      setPct_getD_ne _ _ _ _ _ _ (by omega), setPct_getD_ne _ _ _ _ _ _ (by omega),
      setPct_getD_ne _ _ _ _ _ _ (by omega), getD_set_ne _ _ _ _ _ (by omega),
      foldl_id, hrep _ (by omega)]
  · rw [mkGraph_pctText]
    simp only [h0, pct_zero, setPct_none]
    rw [setPct_getD_ne _ _ _ _ _ _ (by omega), setPct_getD_ne _ _ _ _ _ _ (by omega),
      setPct_getD_ne _ _ _ _ _ _ (by omega), setPct_getD_ne _ _ _ _ _ _ (by omega),
      setPct_getD_ne _ _ _ _ _ _ (by omega), getD_set_ne _ _ _ _ _ (by omega),
      foldl_id, hrep _ (by omega)]
  · rw [mkGraph_pctText]
    simp only [h0, pct_zero, setPct_none]
    rw [setPct_getD_ne _ _ _ _ _ _ (by omega), setPct_getD_ne _ _ _ _ _ _ (by omega),
      setPct_getD_ne _ _ _ _ _ _ (by omega), setPct_getD_ne _ _ _ _ _ _ (by omega),
      setPct_getD_ne _ _ _ _ _ _ (by omega), getD_set_ne _ _ _ _ _ (by omega),
      segFold_getD _ _ _ _ _ (hseg _ (by omega)), hrep _ (by omega)]
  · rw [mkGraph_pctText]
    simp only [h0, pct_zero, setPct_none]
    rw [setPct_getD_ne _ _ _ _ _ _ (by omega), setPct_getD_ne _ _ _ _ _ _ (by omega),
      setPct_getD_ne _ _ _ _ _ _ (by omega), setPct_getD_ne _ _ _ _ _ _ (by omega),
      setPct_getD_ne _ _ _ _ _ _ (by omega), getD_set_ne _ _ _ _ _ (by omega),
      segFold_getD _ _ _ _ _ (hseg _ (by omega)), hrep _ (by omega)]
  · rw [mkGraph_pctText]
    simp only [h0, pct_zero, setPct_none]
    rw [setPct_getD_ne _ _ _ _ _ _ (by omega), setPct_getD_ne _ _ _ _ _ _ (by omega),
      setPct_getD_ne _ _ _ _ _ _ (by omega), setPct_getD_ne _ _ _ _ _ _ (by omega),
      setPct_getD_ne _ _ _ _ _ _ (by omega), setPct_getD_ne _ _ _ _ _ _ (by omega),
      getD_set_ne _ _ _ _ _ (by omega),
      segFold_getD _ _ _ _ _ (hseg _ (by omega)), hrep _ (by omega)]
  · rw [mkGraph_pctText]
    simp only [h0, pct_zero, setPct_none]
    rw [setPct_getD_ne _ _ _ _ _ _ (by omega), setPct_getD_ne _ _ _ _ _ _ (by omega),
      setPct_getD_ne _ _ _ _ _ _ (by omega), setPct_getD_ne _ _ _ _ _ _ (by omega),
      setPct_getD_ne _ _ _ _ _ _ (by omega), getD_set_ne _ _ _ _ _ (by omega),
      segFold_getD _ _ _ _ _ (hseg _ (by omega)), hrep _ (by omega)]
  · rw [mkGraph_pctText]
    simp only [h0, pct_zero, setPct_none]
    rw [setPct_getD_ne _ _ _ _ _ _ (by omega), setPct_getD_ne _ _ _ _ _ _ (by omega),
      setPct_getD_ne _ _ _ _ _ _ (by omega), setPct_getD_ne _ _ _ _ _ _ (by omega),
      setPct_getD_ne _ _ _ _ _ _ (by omega), getD_set_ne _ _ _ _ _ (by omega),
      segFold_getD _ _ _ _ _ (hseg _ (by omega)), hrep _ (by omega)]

end Sankey

namespace Sankey

/-- An all-zero statement used to witness the zero-denominator behavior. -/
def zRev0 : Row := ⟨"REV_TOTAL", "Revenue", 0⟩

def zCogs0 : Row := ⟨"COGS_TOTAL", "COGS", 0⟩

def zGp0 : Row := ⟨"GP_TOTAL", "Gross profit", 0⟩

def zOpex0 : Row := ⟨"OPEX_TOTAL", "Opex", 0⟩

def zEbit0 : Row := ⟨"EBIT_TOTAL", "EBIT", 0⟩

def zPbt0 : Row := ⟨"PBT_TOTAL", "PBT", 0⟩

def zTax0 : Row := ⟨"TAX_EXPENSE", "Tax", 0⟩

def zNet0 : Row := ⟨"NET_PROFIT_TOTAL", "Net profit", 0⟩

def zSeg0 : Row := ⟨"REV_BREAKDOWN_SEGMENT", "Segment A", 0⟩

/-- C3 witness: with every value zero and one segment, `pct` yields no
percentage and the segment (index 0), COGS (index 2 = n_seg+1) and Net Profit
(index 8 = n_seg+7) labels are all empty. -/
theorem zero_denominator_empty_pct_witness :
    pct 5 0 = none ∧
    (mkGraph zRev0 zCogs0 zGp0 zOpex0 zEbit0 zPbt0 zTax0 zNet0 [zSeg0]).pctText.getD 0 "" = "" ∧
    (mkGraph zRev0 zCogs0 zGp0 zOpex0 zEbit0 zPbt0 zTax0 zNet0 [zSeg0]).pctText.getD 2 "" = "" ∧
    (mkGraph zRev0 zCogs0 zGp0 zOpex0 zEbit0 zPbt0 zTax0 zNet0 [zSeg0]).pctText.getD 8 "" = "" := by
  have h := zero_denominator_empty_pct zRev0 zCogs0 zGp0 zOpex0 zEbit0 zPbt0 zTax0 zNet0 [zSeg0]
  exact ⟨h.1 5, (h.2.1 rfl).1 0 (by simp), (h.2.1 rfl).2.1, (h.2.2.2.2 rfl).2⟩

/-- C4: a table missing any required anchor makes graph construction fail with
the ValueError whose message names a missing anchor (the first one in lookup
order); no graph of silent defaults is returned. -/
theorem missing_anchor_fails (table : List Row)
    (h : ∃ a ∈ requiredAnchors, ∀ r ∈ table, r.anchor ≠ a) :
    ∃ a ∈ requiredAnchors, (∀ r ∈ table, r.anchor ≠ a) ∧
      buildSankey table = .error ("Row not found for anchor=" ++ a) := by
  by_cases c1 : ∀ r ∈ table, r.anchor ≠ "REV_TOTAL"
  · exact ⟨"REV_TOTAL", by simp [requiredAnchors], c1, by
      simp only [buildSankey, get_row_of_absent table "REV_TOTAL" c1, exc_bind_error]⟩
  push_neg at c1
  obtain ⟨rr1, hm1, ha1⟩ := c1
  obtain ⟨r1, he1, -, -⟩ := get_row_of_present table "REV_TOTAL" ⟨rr1, hm1, ha1⟩
  by_cases c2 : ∀ r ∈ table, r.anchor ≠ "COGS_TOTAL"
  · exact ⟨"COGS_TOTAL", by simp [requiredAnchors], c2, by
      simp only [buildSankey, he1, exc_bind_ok,
        get_row_of_absent table "COGS_TOTAL" c2, exc_bind_error]⟩
  push_neg at c2
  obtain ⟨rr2, hm2, ha2⟩ := c2
  obtain ⟨r2, he2, -, -⟩ := get_row_of_present table "COGS_TOTAL" ⟨rr2, hm2, ha2⟩
  by_cases c3 : ∀ r ∈ table, r.anchor ≠ "GP_TOTAL"
  · exact ⟨"GP_TOTAL", by simp [requiredAnchors], c3, by
      simp only [buildSankey, he1, he2, exc_bind_ok,
        get_row_of_absent table "GP_TOTAL" c3, exc_bind_error]⟩
  push_neg at c3
  obtain ⟨rr3, hm3, ha3⟩ := c3
  obtain ⟨r3, he3, -, -⟩ := get_row_of_present table "GP_TOTAL" ⟨rr3, hm3, ha3⟩
  by_cases c4 : ∀ r ∈ table, r.anchor ≠ "OPEX_TOTAL"
  · exact ⟨"OPEX_TOTAL", by simp [requiredAnchors], c4, by
      simp only [buildSankey, he1, he2, he3, exc_bind_ok,
        get_row_of_absent table "OPEX_TOTAL" c4, exc_bind_error]⟩
  push_neg at c4
  obtain ⟨rr4, hm4, ha4⟩ := c4
  obtain ⟨r4, he4, -, -⟩ := get_row_of_present table "OPEX_TOTAL" ⟨rr4, hm4, ha4⟩
  by_cases c5 : ∀ r ∈ table, r.anchor ≠ "EBIT_TOTAL"
  · exact ⟨"EBIT_TOTAL", by simp [requiredAnchors], c5, by
      simp only [buildSankey, he1, he2, he3, he4, exc_bind_ok,
        get_row_of_absent table "EBIT_TOTAL" c5, exc_bind_error]⟩
  push_neg at c5
  obtain ⟨rr5, hm5, ha5⟩ := c5
  obtain ⟨r5, he5, -, -⟩ := get_row_of_present table "EBIT_TOTAL" ⟨rr5, hm5, ha5⟩
  by_cases c6 : ∀ r ∈ table, r.anchor ≠ "PBT_TOTAL"
  · exact ⟨"PBT_TOTAL", by simp [requiredAnchors], c6, by
      simp only [buildSankey, he1, he2, he3, he4, he5, exc_bind_ok,
        get_row_of_absent table "PBT_TOTAL" c6, exc_bind_error]⟩
  push_neg at c6
  obtain ⟨rr6, hm6, ha6⟩ := c6
  obtain ⟨r6, he6, -, -⟩ := get_row_of_present table "PBT_TOTAL" ⟨rr6, hm6, ha6⟩
  by_cases c7 : ∀ r ∈ table, r.anchor ≠ "TAX_EXPENSE"
  · exact ⟨"TAX_EXPENSE", by simp [requiredAnchors], c7, by
      simp only [buildSankey, he1, he2, he3, he4, he5, he6, exc_bind_ok,
        get_row_of_absent table "TAX_EXPENSE" c7, exc_bind_error]⟩
  push_neg at c7
  obtain ⟨rr7, hm7, ha7⟩ := c7
  obtain ⟨r7, he7, -, -⟩ := get_row_of_present table "TAX_EXPENSE" ⟨rr7, hm7, ha7⟩
  by_cases c8 : ∀ r ∈ table, r.anchor ≠ "NET_PROFIT_TOTAL"
  · exact ⟨"NET_PROFIT_TOTAL", by simp [requiredAnchors], c8, by
      simp only [buildSankey, he1, he2, he3, he4, he5, he6, he7, exc_bind_ok,
        get_row_of_absent table "NET_PROFIT_TOTAL" c8, exc_bind_error]⟩
  push_neg at c8
  obtain ⟨rr8, hm8, ha8⟩ := c8
  obtain ⟨a, ha, habs⟩ := h
  simp only [requiredAnchors, List.mem_cons, List.not_mem_nil, or_false] at ha
  rcases ha with rfl | rfl | rfl | rfl | rfl | rfl | rfl | rfl
  · exact absurd ha1 (habs rr1 hm1)
  · exact absurd ha2 (habs rr2 hm2)
  · exact absurd ha3 (habs rr3 hm3)
  · exact absurd ha4 (habs rr4 hm4)
  · exact absurd ha5 (habs rr5 hm5)
  · exact absurd ha6 (habs rr6 hm6)
  · exact absurd ha7 (habs rr7 hm7)
  · exact absurd ha8 (habs rr8 hm8)

/-- The example table with the EBIT_TOTAL row removed, a malformed input. -/
def exTableMissing : List Row := [exRev, exCogs, exGp, exOpex, exPbt, exTax, exNet]

/-- C4 witness: on the table missing EBIT_TOTAL the builder fails with the
error naming a missing required anchor. -/
theorem missing_anchor_fails_witness :
    ∃ a ∈ requiredAnchors, (∀ r ∈ exTableMissing, r.anchor ≠ a) ∧
      buildSankey exTableMissing = .error ("Row not found for anchor=" ++ a) :=
  missing_anchor_fails exTableMissing (by decide)

end Sankey

namespace Sankey

/-- C10: duplicate anchors are not an error.  `get_row` returns the first row
in table order whose anchor matches, ignoring all later duplicates, and the
builder succeeds on any table in which every required anchor appears at least
once, duplicated or not. -/
theorem duplicate_anchor_first_wins (pre post : List Row) (r : Row) (a : String)
    (table : List Row) :
    (r.anchor = a → (∀ r' ∈ pre, r'.anchor ≠ a) →
      get_row (pre ++ r :: post) a = .ok r) ∧
    ((∀ b ∈ requiredAnchors, ∃ r' ∈ table, r'.anchor = b) →
      ∃ g, buildSankey table = .ok g) := by
  refine ⟨fun hr hp => get_row_first pre post r a hr hp, fun hall => ?_⟩
  obtain ⟨r1, he1, -, -⟩ :=
    get_row_of_present table "REV_TOTAL" (hall _ (by simp [requiredAnchors]))
  obtain ⟨r2, he2, -, -⟩ :=
    get_row_of_present table "COGS_TOTAL" (hall _ (by simp [requiredAnchors]))
  obtain ⟨r3, he3, -, -⟩ :=
    get_row_of_present table "GP_TOTAL" (hall _ (by simp [requiredAnchors]))
  obtain ⟨r4, he4, -, -⟩ :=
    get_row_of_present table "OPEX_TOTAL" (hall _ (by simp [requiredAnchors]))
  obtain ⟨r5, he5, -, -⟩ :=
    get_row_of_present table "EBIT_TOTAL" (hall _ (by simp [requiredAnchors]))
  obtain ⟨r6, he6, -, -⟩ :=
    get_row_of_present table "PBT_TOTAL" (hall _ (by simp [requiredAnchors]))
  obtain ⟨r7, he7, -, -⟩ :=
    get_row_of_present table "TAX_EXPENSE" (hall _ (by simp [requiredAnchors]))
  obtain ⟨r8, he8, -, -⟩ :=
    get_row_of_present table "NET_PROFIT_TOTAL" (hall _ (by simp [requiredAnchors]))
  exact ⟨_, buildSankey_ok_of table r1 r2 r3 r4 r5 r6 r7 r8
    he1 he2 he3 he4 he5 he6 he7 he8⟩

/-- A second EBIT_TOTAL row appended after the well-formed example table. -/
def exDupRow : Row := ⟨"EBIT_TOTAL", "EBIT again", 999⟩

def exTableDup : List Row := [exRev, exCogs, exGp, exOpex, exEbit, exPbt, exTax, exNet, exDupRow]

/-- C10 witness: with EBIT_TOTAL duplicated, the lookup returns the first
EBIT_TOTAL row (current 300, not 999) and the builder still succeeds. -/
theorem duplicate_anchor_first_wins_witness :
    get_row exTableDup "EBIT_TOTAL" = .ok exEbit ∧
    ∃ g, buildSankey exTableDup = .ok g := by
  have h := duplicate_anchor_first_wins [exRev, exCogs, exGp, exOpex]
    [exPbt, exTax, exNet, exDupRow] exEbit "EBIT_TOTAL" exTableDup
  exact ⟨h.1 rfl (by decide), h.2 (by decide)⟩

end Sankey

namespace Sankey

theorem total_out_eq_sum (flows : List (Nat × Nat × ℚ)) (s : Nat) :
    total_out flows s = ((flows.filter (fun f => f.1 == s)).map (fun f => f.2.2)).sum := by
  suffices h : ∀ acc, flows.foldl (fun acc f => if f.1 = s then acc + f.2.2 else acc) acc
      = acc + ((flows.filter (fun f => f.1 == s)).map (fun f => f.2.2)).sum by
    simpa [total_out] using h 0
  induction flows with
  | nil => simp
  | cons f fl ih =>
    intro acc
    by_cases hf : f.1 = s
    · simp [List.foldl_cons, hf, List.filter_cons, ih, add_assoc]
    · simp [List.foldl_cons, hf, List.filter_cons, ih]

theorem zip_self_map {α β : Type} (l : List α) (F : α → β) :
    l.zip (l.map F) = l.map (fun a => (a, F a)) := by
  simpa using List.zip_map' id F l

theorem linkF_of_source (all : List (Nat × Nat × ℚ)) (f : Nat × Nat × ℚ) (s : Nat)
    (hf : f.1 = s) (hT : total_out all s ≠ 0) :
    linkF all f = 100 * f.2.2 / total_out all s := by
  simp [linkF, hf, hT, pct]

theorem sourcePcts_sum_aux (all fl : List (Nat × Nat × ℚ)) (s : Nat)
    (hT : total_out all s ≠ 0) :
    (((fl.zip (fl.map (linkF all))).filter (fun p => p.1.1 == s)).map (fun p => p.2)).sum
      = 100 * ((fl.filter (fun f => f.1 == s)).map (fun f => f.2.2)).sum / total_out all s := by
  rw [zip_self_map]
  induction fl with
  | nil => simp
  | cons f fl ih =>
    by_cases hf : f.1 = s
    · simp only [List.map_cons, List.filter_cons, hf, beq_self_eq_true, if_pos,
        List.map_cons, List.sum_cons, ih, linkF_of_source all f s hf hT]
      rw [div_add_div_same, ← mul_add]
    · simp only [List.map_cons, List.filter_cons]
      have hb : ((f, linkF all f).1.1 == s) = false := by simp [hf]
      have hb' : (f.1 == s) = false := by simp [hf]
      simp [hb, hb', ih]

theorem sourcePcts_zero_aux (all fl : List (Nat × Nat × ℚ)) (s : Nat)
    (hT : total_out all s = 0) :
    ∀ q ∈ ((fl.zip (fl.map (linkF all))).filter (fun p => p.1.1 == s)).map (fun p => p.2),
      q = 0 := by
  rw [zip_self_map]
  intro q hq
  obtain ⟨p, hp, rfl⟩ := List.mem_map.mp hq
  obtain ⟨hp1, hp2⟩ := List.mem_filter.mp hp
  obtain ⟨f, -, rfl⟩ := List.mem_map.mp hp1
  have hfs : f.1 = s := by simpa using hp2
  simp [linkF, hfs, hT]

/-- C5: over every source node of the produced graph, the link percentages
behave as a partition of the outflow: when the total outflow of the
source is nonzero they sum exactly to 100 (exact rational arithmetic); when
the total is zero every such link percentage is 0. -/
theorem link_pct_partition (table : List Row) (g : SankeyGraph)
    (h : buildSankey table = .ok g) (s : Nat) (hs : ∃ f ∈ g.flows, f.1 = s) :
    (total_out g.flows s ≠ 0 → (sourcePcts g s).sum = 100) ∧
    (total_out g.flows s = 0 → ∀ q ∈ sourcePcts g s, q = 0) := by
  obtain ⟨r1, r2, r3, r4, r5, r6, r7, r8, -, -, -, -, -, -, -, -, rfl⟩ :=
    buildSankey_ok_elim table g h
  constructor
  · intro hT
    have hsum := sourcePcts_sum_aux
      (mkGraph r1 r2 r3 r4 r5 r6 r7 r8
        (get_rows_by_anchor table "REV_BREAKDOWN_SEGMENT")).flows
      (mkGraph r1 r2 r3 r4 r5 r6 r7 r8
        (get_rows_by_anchor table "REV_BREAKDOWN_SEGMENT")).flows s hT
    rw [sourcePcts, mkGraph_linkPct, hsum, ← total_out_eq_sum, mul_div_assoc,
      div_self hT, mul_one]
  · intro hT q hq
    rw [sourcePcts, mkGraph_linkPct] at hq
    exact sourcePcts_zero_aux _ _ s hT q hq

/-- C5 witness: on the example table the two links leaving the Revenue node
(index 0) carry percentages summing to exactly 100. -/
theorem link_pct_partition_witness :
    ∃ g, buildSankey exTable = .ok g ∧ (sourcePcts g 0).sum = 100 := by
  refine ⟨_, rfl, ?_⟩
  refine (link_pct_partition exTable _ rfl 0 ⟨(0, 1, 400), ?_, rfl⟩).1 ?_
  · simp [mkGraph_flows, exTable, exRev, exCogs, exGp, exOpex, exEbit, exPbt, exTax, exNet,
      get_rows_by_anchor]
  · simp [total_out, mkGraph_flows, exTable, exRev, exCogs, exGp, exOpex, exEbit, exPbt,
      exTax, exNet, get_rows_by_anchor]
    norm_num

end Sankey

namespace Sankey

theorem bump_length (nv : List ℚ) (f : Nat × Nat × ℚ) :
    (bumpNodeValues nv f).length = nv.length := by
  simp [bumpNodeValues]

theorem bump_getD (nv : List ℚ) (f : Nat × Nat × ℚ) (j : Nat)
    (hs : f.1 < nv.length) (ht : f.2.1 < nv.length) :
    (bumpNodeValues nv f).getD j 0 =
      if f.1 = j ∨ f.2.1 = j then max (nv.getD j 0) f.2.2 else nv.getD j 0 := by
  by_cases htj : f.2.1 = j
  · subst htj
    rw [if_pos (Or.inr rfl)]
    by_cases hsj : f.1 = f.2.1
    · simp only [bumpNodeValues]
      rw [getD_set_self _ _ _ _ (by rw [List.length_set]; exact ht), ← hsj,
        getD_set_self _ _ _ _ hs, hsj, max_assoc, max_self]
    · simp only [bumpNodeValues]
      rw [getD_set_self _ _ _ _ (by rw [List.length_set]; exact ht),
        getD_set_ne _ _ _ _ _ hsj]
  · by_cases hsj : f.1 = j
    · rw [if_pos (Or.inl hsj)]
      simp only [bumpNodeValues]
      rw [getD_set_ne _ _ _ _ _ htj, ← hsj, getD_set_self _ _ _ _ hs]
    · rw [if_neg (by tauto)]
      simp only [bumpNodeValues]
      rw [getD_set_ne _ _ _ _ _ htj, getD_set_ne _ _ _ _ _ hsj]

theorem foldl_bump_getD (fl : List (Nat × Nat × ℚ)) (nv : List ℚ) (j : Nat)
    (hb : ∀ f ∈ fl, f.1 < nv.length ∧ f.2.1 < nv.length) :
    (fl.foldl bumpNodeValues nv).getD j 0 =
      fl.foldl (fun acc f => if f.1 = j ∨ f.2.1 = j then max acc f.2.2 else acc)
        (nv.getD j 0) := by
  induction fl generalizing nv with
  | nil => rfl
  | cons f fl ih =>
    simp only [List.foldl_cons]
    rw [ih (bumpNodeValues nv f)
      (by intro f' hf'; rw [bump_length]; exact hb f' (List.mem_cons_of_mem f hf')),
      bump_getD nv f j (hb f (by simp)).1 (hb f (by simp)).2]

theorem scalarFold_le (j : Nat) (fl : List (Nat × Nat × ℚ)) :
    ∀ a : ℚ, a ≤ fl.foldl
      (fun acc f => if f.1 = j ∨ f.2.1 = j then max acc f.2.2 else acc) a := by
  induction fl with
  | nil => exact fun a => le_refl a
  | cons f fl ih =>
    intro a
    refine le_trans ?_ (ih _)
    by_cases hc : f.1 = j ∨ f.2.1 = j
    · simp only [List.foldl_cons, if_pos hc]; exact le_max_left a f.2.2
    · simp only [List.foldl_cons, if_neg hc]; exact le_refl a

theorem scalarFold_ub (j : Nat) (fl : List (Nat × Nat × ℚ)) :
    ∀ (a : ℚ) (f), f ∈ fl → (f.1 = j ∨ f.2.1 = j) →
      f.2.2 ≤ fl.foldl
        (fun acc f => if f.1 = j ∨ f.2.1 = j then max acc f.2.2 else acc) a := by
  induction fl with
  | nil => intro a f hf; exact absurd hf (by simp)
  | cons f' fl ih =>
    intro a f hf hc
    rcases List.mem_cons.mp hf with rfl | hf'
    · simp only [List.foldl_cons, if_pos hc]
      exact le_trans (le_max_right a f.2.2) (scalarFold_le j fl _)
    · simp only [List.foldl_cons]
      exact ih _ f hf' hc

theorem scalarFold_attained (j : Nat) (fl : List (Nat × Nat × ℚ)) :
    ∀ a : ℚ,
      fl.foldl (fun acc f => if f.1 = j ∨ f.2.1 = j then max acc f.2.2 else acc) a = a ∨
      ∃ f ∈ fl, (f.1 = j ∨ f.2.1 = j) ∧
        f.2.2 = fl.foldl (fun acc f => if f.1 = j ∨ f.2.1 = j then max acc f.2.2 else acc) a := by
  induction fl with
  | nil => exact fun a => Or.inl rfl
  | cons f' fl ih =>
    intro a
    simp only [List.foldl_cons]
    by_cases hc : f'.1 = j ∨ f'.2.1 = j
    · rw [if_pos hc]
      rcases ih (max a f'.2.2) with h | ⟨f, hf, hfc, hfv⟩
      · rcases max_choice a f'.2.2 with hm | hm
        · exact Or.inl (h.trans hm)
        · exact Or.inr ⟨f', by simp, hc, (h.trans hm).symm⟩
      · exact Or.inr ⟨f, List.mem_cons_of_mem f' hf, hfc, hfv⟩
    · rw [if_neg hc]
      rcases ih a with h | ⟨f, hf, hfc, hfv⟩
      · exact Or.inl h
      · exact Or.inr ⟨f, List.mem_cons_of_mem f' hf, hfc, hfv⟩

/-- C7 amended: the displayed value of a node is the maximum of 0 and the weights
of the edges touching it (the loop at plot_sankey.py lines 167-170 starts from
0): it is non-negative, it bounds every touching edge weight from above, and
it is either 0 or attained by a touching edge.  It is not always the plain
maximum of the touching weights: when every touching weight is negative, the
value stays 0. -/
theorem node_value_max_with_zero (table : List Row) (g : SankeyGraph)
    (h : buildSankey table = .ok g) :
    ∀ i, i < g.nodes.length →
      0 ≤ g.nodeValues.getD i 0 ∧
      (∀ f ∈ g.flows, (f.1 = i ∨ f.2.1 = i) → f.2.2 ≤ g.nodeValues.getD i 0) ∧
      (g.nodeValues.getD i 0 = 0 ∨
        ∃ f ∈ g.flows, (f.1 = i ∨ f.2.1 = i) ∧ f.2.2 = g.nodeValues.getD i 0) := by
  obtain ⟨r1, r2, r3, r4, r5, r6, r7, r8, -, -, -, -, -, -, -, -, rfl⟩ :=
    buildSankey_ok_elim table g h
  intro i hi
  have hb : ∀ f ∈ (mkGraph r1 r2 r3 r4 r5 r6 r7 r8
      (get_rows_by_anchor table "REV_BREAKDOWN_SEGMENT")).flows,
      f.1 < (List.replicate (mkGraph r1 r2 r3 r4 r5 r6 r7 r8
        (get_rows_by_anchor table "REV_BREAKDOWN_SEGMENT")).nodes.length (0:ℚ)).length ∧
      f.2.1 < (List.replicate (mkGraph r1 r2 r3 r4 r5 r6 r7 r8
        (get_rows_by_anchor table "REV_BREAKDOWN_SEGMENT")).nodes.length (0:ℚ)).length := by
    intro f hf
    have hbd := mkGraph_flows_bounds r1 r2 r3 r4 r5 r6 r7 r8 _ f hf
    rw [List.length_replicate]
    omega
  have hrep : (List.replicate (mkGraph r1 r2 r3 r4 r5 r6 r7 r8
      (get_rows_by_anchor table "REV_BREAKDOWN_SEGMENT")).nodes.length (0:ℚ)).getD i 0 = 0 :=
    getD_replicate _ _ _ _ hi
  rw [mkGraph_nodeValues, foldl_bump_getD _ _ i hb, hrep]
  refine ⟨scalarFold_le i _ 0, fun f hf hc => scalarFold_ub i _ 0 f hf hc, ?_⟩
  exact scalarFold_attained i _ 0

/-- A revenue segment with a negative current value. -/
def exSegNeg : Row := ⟨"REV_BREAKDOWN_SEGMENT", "Segment A", -5⟩

def exTableSegNeg : List Row :=
  [exRev, exCogs, exGp, exOpex, exEbit, exPbt, exTax, exNet, exSegNeg]

/-- C7 counterexample: the claim "node value equals the maximum weight among
the touching edges" fails.  On a well-formed table with one segment of
current = -5, the segment node (index 0) touches exactly one edge, of weight
-5, so the maximum touching weight is -5, yet the node value is 0: the loop
folds `max` starting from 0, not from the touching weights. -/
theorem node_value_not_max_touching :
    ∃ g, buildSankey exTableSegNeg = .ok g ∧
      maxTouching g.flows 0 = some (-5) ∧
      g.nodeValues.getD 0 0 = 0 ∧ (0 : ℚ) ≠ -5 := by
  refine ⟨_, rfl, ?_, ?_, by norm_num⟩
  · simp [maxTouching, mkGraph_flows, exTableSegNeg, exRev, exCogs, exGp, exOpex, exEbit,
      exPbt, exTax, exNet, exSegNeg, get_rows_by_anchor, List.max?]
  · simp [mkGraph_nodeValues, mkGraph_flows, mkGraph_nodes_length, bumpNodeValues,
      exTableSegNeg, exRev, exCogs, exGp, exOpex, exEbit, exPbt, exTax, exNet, exSegNeg,
      get_rows_by_anchor, List.replicate, max_def]
    try norm_num

/-- C7 amended witness: on the example table every node value is non-negative;
instantiated at the Revenue node (index 0). -/
theorem node_value_max_with_zero_witness :
    ∃ g, buildSankey exTable = .ok g ∧ 0 ≤ g.nodeValues.getD 0 0 := by
  refine ⟨_, rfl, (node_value_max_with_zero exTable _ rfl 0 ?_).1⟩
  simp [mkGraph_nodes_length, exTable, exRev, exCogs, exGp, exOpex, exEbit, exPbt,
    exTax, exNet, get_rows_by_anchor]

end Sankey

namespace PeerTable

theorem charListLe_trans : ∀ as bs cs : List Char,
    charListLe as bs = true → charListLe bs cs = true → charListLe as cs = true
  | [], _, _, _, _ => rfl
  | _ :: _, [], _, h1, _ => by simp [charListLe] at h1
  | _ :: _, _ :: _, [], _, h2 => by simp [charListLe] at h2
  | a :: as, b :: bs, c :: cs, h1, h2 => by
    simp only [charListLe] at h1 h2 ⊢
    rcases Nat.lt_trichotomy a.toNat b.toNat with hab | hab | hab
    · rcases Nat.lt_trichotomy b.toNat c.toNat with hbc | hbc | hbc
      · rw [if_pos (by omega)]
      · rw [if_pos (by omega)]
      · rw [if_neg (by omega), if_pos (by omega)] at h2
        exact absurd h2 (by simp)
    · rw [if_neg (by omega), if_neg (by omega)] at h1
      rcases Nat.lt_trichotomy b.toNat c.toNat with hbc | hbc | hbc
      · rw [if_pos (by omega)]
      · rw [if_neg (by omega), if_neg (by omega)] at h2
        rw [if_neg (by omega), if_neg (by omega)]
        exact charListLe_trans as bs cs h1 h2
      · rw [if_neg (by omega), if_pos (by omega)] at h2
        exact absurd h2 (by simp)
    · rw [if_neg (by omega), if_pos (by omega)] at h1
      exact absurd h1 (by simp)

theorem charListLe_total : ∀ as bs : List Char,
    charListLe as bs = true ∨ charListLe bs as = true
  | [], _ => Or.inl rfl
  | _ :: _, [] => Or.inr rfl
  | a :: as, b :: bs => by
    simp only [charListLe]
    rcases Nat.lt_trichotomy a.toNat b.toNat with h | h | h
    · exact Or.inl (by rw [if_pos h])
    · rcases charListLe_total as bs with hr | hr
      · refine Or.inl ?_
        rw [if_neg (by omega), if_neg (by omega)]
        exact hr
      · refine Or.inr ?_
        rw [if_neg (by omega), if_neg (by omega)]
        exact hr
    · exact Or.inr (by rw [if_pos h])

instance strLeTrans : IsTrans String (fun a b => strLe a b = true) :=
  ⟨fun a b c h1 h2 => charListLe_trans a.data b.data c.data h1 h2⟩

instance strLeTotal : IsTotal String (fun a b => strLe a b = true) :=
  ⟨fun a b => charListLe_total a.data b.data⟩

instance pairValueGeTrans : IsTrans (String × ℚ) (fun a b => b.2 ≤ a.2) :=
  ⟨fun _ _ _ h1 h2 => le_trans h2 h1⟩

instance pairValueGeTotal : IsTotal (String × ℚ) (fun a b => b.2 ≤ a.2) :=
  ⟨fun a b => le_total b.2 a.2⟩

theorem mem_of_mem_dropDupAux {α : Type} [DecidableEq α] :
    ∀ (l seen : List α) (x : α), x ∈ dropDupAux l seen → x ∈ l
  | [], _, x, h => absurd h (by simp [dropDupAux])
  | y :: l, seen, x, h => by
    simp only [dropDupAux] at h
    by_cases hy : y ∈ seen
    · rw [if_pos hy] at h
      exact List.mem_cons_of_mem y (mem_of_mem_dropDupAux l seen x h)
    · rw [if_neg hy] at h
      rcases List.mem_cons.mp h with rfl | h'
      · exact List.mem_cons_self _ _
      · exact List.mem_cons_of_mem y (mem_of_mem_dropDupAux l (y :: seen) x h')

theorem mem_of_mem_dropDup {α : Type} [DecidableEq α] (l : List α) (x : α)
    (h : x ∈ dropDup l) : x ∈ l :=
  mem_of_mem_dropDupAux l [] x h

theorem length_dropDupAux_le {α : Type} [DecidableEq α] :
    ∀ (l seen : List α), (dropDupAux l seen).length ≤ l.length
  | [], _ => le_refl 0
  | y :: l, seen => by
    simp only [dropDupAux]
    by_cases hy : y ∈ seen
    · rw [if_pos hy]
      exact le_trans (length_dropDupAux_le l seen) (Nat.le_succ _)
    · rw [if_neg hy]
      simpa using Nat.succ_le_succ (length_dropDupAux_le l (y :: seen))

theorem length_dropDup_le {α : Type} [DecidableEq α] (l : List α) :
    (dropDup l).length ≤ l.length :=
  length_dropDupAux_le l []

/-- Any element of the peer list comes from a market_cap record of another
company. -/
theorem mem_peers_elim (df : List MetricRow) (code p : String) (hp : p ∈ peers df code) :
    ∃ r ∈ df, r.code = p ∧ r.metric = "market_cap" ∧ r.code ≠ code := by
  have h1 := mem_of_mem_dropDup _ _ hp
  obtain ⟨q, hq, hq2⟩ := List.mem_map.mp h1
  have h2 : q ∈ List.insertionSort (fun a b : String × ℚ => b.2 ≤ a.2)
      (dropDup ((df.filter
        (fun r => r.metric == "market_cap" && r.code != code)).map
          (fun r => (r.code, r.clean_value)))) :=
    (List.take_sublist 5 _).mem hq
  have h3 := ((List.perm_insertionSort (fun a b : String × ℚ => b.2 ≤ a.2) _).mem_iff).mp h2
  have h4 := mem_of_mem_dropDup _ _ h3
  obtain ⟨r, hr, hrq⟩ := List.mem_map.mp h4
  obtain ⟨hrdf, hcond⟩ := List.mem_filter.mp hr
  have hcond' : r.metric = "market_cap" ∧ r.code ≠ code := by
    simpa using hcond
  refine ⟨r, hrdf, ?_, hcond'.1, hcond'.2⟩
  rw [← hq2, ← hrq]

end PeerTable

namespace PeerTable

/-- C8 amended: the peer selection and the final core table have the shape the
code produces.  At most five peers are chosen; the target is never among them;
every peer appears in the input under the size metric market_cap; the pairs
they are drawn from are sorted by value descending; the selection list
`category` puts the target code first; the allow-list restriction yields a
row list that is a sublist of `core_metrics_in_order`; but the pivoted
columns of the table are in lexicographic code order (pandas DataFrame.pivot
sorts the column axis), NOT with the target column first. -/
theorem peer_table_shape (df : List MetricRow) (code : String) :
    (peers df code).length ≤ 5 ∧
    code ∉ peers df code ∧
    (∀ p ∈ peers df code, ∃ r ∈ df, r.code = p ∧ r.metric = "market_cap") ∧
    (category df code).head? = some code ∧
    List.Sorted (fun a b => strLe a b = true) (df_core_columns df code) ∧
    (metrics_available df code).Sublist core_metrics_in_order ∧
    List.Sorted (fun a b : String × ℚ => b.2 ≤ a.2)
      (List.insertionSort (fun a b : String × ℚ => b.2 ≤ a.2)
        (dropDup ((df.filter
          (fun r => r.metric == "market_cap" && r.code != code)).map
            (fun r => (r.code, r.clean_value))))) := by
  refine ⟨?_, ?_, ?_, rfl, ?_, ?_, ?_⟩
  · refine le_trans (length_dropDup_le _) ?_
    rw [List.length_map, List.length_take]
    exact min_le_left 5 _
  · intro hmem
    obtain ⟨r, -, hrc, -, hne⟩ := mem_peers_elim df code code hmem
    exact hne hrc
  · intro p hp
    obtain ⟨r, hr, hrc, hrm, -⟩ := mem_peers_elim df code p hp
    exact ⟨r, hr, hrc, hrm⟩
  · simp only [df_core_columns, pivotColumns, sortStrings]
    exact List.sorted_insertionSort _ _
  · simp only [metrics_available]
    exact List.filter_sublist _
  · exact List.sorted_insertionSort _ _

/-- A four-record table: companies AA and ZZ, each with a market_cap record
and a Current PE Ratio (TTM) record. -/
def exDf : List MetricRow :=
  [⟨"AA", "market_cap", 100⟩, ⟨"ZZ", "market_cap", 50⟩,
   ⟨"AA", "Current PE Ratio (TTM)", 10⟩, ⟨"ZZ", "Current PE Ratio (TTM)", 12⟩]

/-- C8 counterexample: the column of the target company is NOT first in the pivoted
table.  With target ZZ and sole peer AA, the selection list is [ZZ, AA] but
the pivoted columns come out sorted as [AA, ZZ]: pandas
DataFrame.pivot sorts the column labels, and plot_table.py never reorders
them, so the target column leads only when its code sorts first. -/
theorem peer_table_target_not_first :
    category exDf "ZZ" = ["ZZ", "AA"] ∧
    df_core_columns exDf "ZZ" = ["AA", "ZZ"] ∧
    (df_core_columns exDf "ZZ").head? ≠ some "ZZ" := by
  refine ⟨?_, ?_, ?_⟩ <;> decide

/-- C8 amended witness: instantiated on the concrete table with target ZZ:
at most five peers, ZZ not among its own peers, and the selection list starts
with ZZ. -/
theorem peer_table_shape_witness :
    (peers exDf "ZZ").length ≤ 5 ∧ "ZZ" ∉ peers exDf "ZZ" ∧
    (category exDf "ZZ").head? = some "ZZ" := by
  have h := peer_table_shape exDf "ZZ"
  exact ⟨h.1, h.2.1, h.2.2.2.1⟩

end PeerTable
